import Mathlib

/-!
Verification of the MindFlow hero-visualization core (particle morph engine,
brain-shape rejection sampler, drag/inertia controller, black-box transform
sync) against its natural-language specification.

The source is TypeScript/GLSL operating on IEEE doubles; we embed its
arithmetic over `ℚ` (every JavaScript number literal used by the code is a
rational) and treat the transcendental primitives `Math.sin`, `Math.cos`,
`Math.sqrt` (and GLSL `sin`/`cos`) as explicit function parameters, so that
every definition is executable and every theorem quantifies over the
primitive's possible values.  `Math.random()` becomes an explicit stream
`rand : ℕ → ℚ` consumed call-by-call, and the source's unbounded `while`
loop becomes a fuel-indexed iteration.
-/

/-- A 3-D point, as used for particle targets. -/
structure Vec3 where
  x : ℚ
  y : ℚ
  z : ℚ
deriving DecidableEq, Repr

/-- GLSL `clamp(v, lo, hi)` / JS `Math.max(lo, Math.min(hi, v))`. -/
def clampQ (lo hi v : ℚ) : ℚ := max lo (min hi v)

/-- GLSL `smoothstep(a, b, x)`: clamp `t = (x−a)/(b−a)` to `[0,1]`,
return `t·t·(3−2t)`. -/
def smoothstep (a b x : ℚ) : ℚ :=
  let t := clampQ 0 1 ((x - a) / (b - a))
  t * t * (3 - 2 * t)

/-- GLSL `mix(p, q, t) = p·(1−t) + q·t`, written `p + (q−p)·t`. -/
def mixQ (p q t : ℚ) : ℚ := p + (q - p) * t

/-- Componentwise `mix` on 3-vectors. -/
def vmix (p q : Vec3) (t : ℚ) : Vec3 :=
  ⟨mixQ p.x q.x t, mixQ p.y q.y t, mixQ p.z q.z t⟩

/-- The vertex shader's two nested morph mixes:
`pos = mix(position, aBox, t1)` with `t1 = smoothstep(0.1, 0.3, uScroll)`,
then `pos = mix(pos, aBrain, t2)` with `t2 = smoothstep(0.5, 0.7, uScroll)`. -/
def morphBlend (s : ℚ) (pRandom pBox pBrain : Vec3) : Vec3 :=
  let t1 := smoothstep 0.1 0.3 s
  let p1 := vmix pRandom pBox t1
  let t2 := smoothstep 0.5 0.7 s
  vmix p1 pBrain t2

/-- The vertex shader's full position computation: the two morph mixes
followed by the floating-noise offsets
`pos.y += sin(uTime·1.5 + aOffset)·0.2·(1 − t1·0.9)` and
`pos.x += cos(uTime·1.0 + aOffset)·0.1·(1 − t1·0.9)`.
`sin`/`cos` are GLSL's, passed as parameters. -/
def vertexPos (sin cos : ℚ → ℚ) (s time offset : ℚ)
    (pRandom pBox pBrain : Vec3) : Vec3 :=
  let t1 := smoothstep 0.1 0.3 s
  let p := morphBlend s pRandom pBox pBrain
  ⟨p.x + cos (time * 1.0 + offset) * 0.1 * (1 - t1 * 0.9),
   p.y + sin (time * 1.5 + offset) * 0.2 * (1 - t1 * 0.9),
   p.z⟩

/-- BlackBox `useFrame` opacity:
`0` by default; `(s−0.1)/0.2` on `(0.1, 0.3]`; `1` on `(0.3, 0.4]`;
`1 − (s−0.4)/0.1` on `(0.4, 0.5]`. -/
def boxOpacity (s : ℚ) : ℚ :=
  if s > 0.1 ∧ s ≤ 0.3 then (s - 0.1) / 0.2
  else if s > 0.3 ∧ s ≤ 0.4 then 1
  else if s > 0.4 ∧ s ≤ 0.5 then 1 - (s - 0.4) / 0.1
  else 0

/-- BlackBox `useFrame` scale: `1` except on `(0.4, 0.5]` where it is
`1 + ((s−0.4)/0.1)·0.8`. -/
def boxScale (s : ℚ) : ℚ :=
  if s > 0.4 ∧ s ≤ 0.5 then 1 + ((s - 0.4) / 0.1) * 0.8 else 1

/-- ParticleSystem group rotation about y:
`state.clock.elapsedTime * 0.05 + s * Math.PI * 2 + drag.yaw`.
`pi` is the numeric value of `Math.PI`, passed as a parameter. -/
def particleRotY (pi time s yaw : ℚ) : ℚ := time * 0.05 + s * pi * 2 + yaw

/-- ParticleSystem group rotation about x: `s * Math.PI * 0.5 + drag.pitch`. -/
def particleRotX (pi s pitch : ℚ) : ℚ := s * pi * 0.5 + pitch

/-- BlackBox group rotation about y: `s * Math.PI * 2 + drag.yaw` —
note: no elapsed-time term. -/
def boxRotY (pi s yaw : ℚ) : ℚ := s * pi * 2 + yaw

/-- BlackBox group rotation about x: `s * Math.PI * 0.5 + drag.pitch`. -/
def boxRotX (pi s pitch : ℚ) : ℚ := s * pi * 0.5 + pitch

/-! ### Shared drag state and its handlers -/

/-- `e.pointerType` of a pointer event. -/
inductive PointerType where
  | mouse
  | touch
  | pen
deriving DecidableEq, Repr

/-- The module-level shared `drag` object. -/
structure DragState where
  yaw      : ℚ
  pitch    : ℚ
  velYaw   : ℚ
  velPitch : ℚ
  active   : Bool
  lastX    : ℚ
  lastY    : ℚ
deriving DecidableEq, Repr

/-- `const drag = { yaw: 0, pitch: 0, velYaw: 0, velPitch: 0, active: false,
lastX: 0, lastY: 0 }`. -/
def initDrag : DragState := ⟨0, 0, 0, 0, false, 0, 0⟩

/-- `DRAG_SENS = 0.004`. -/
def DRAG_SENS : ℚ := 0.004

/-- `DAMPING = 0.90`. -/
def DAMPING : ℚ := 0.90

/-- `PITCH_LIMIT = Math.PI * 0.45`, with `pi` the numeric value of
`Math.PI` passed as a parameter. -/
def PITCH_LIMIT (pi : ℚ) : ℚ := pi * 0.45

/-- `startDrag(e)`: ignore non-primary mouse buttons, otherwise set
`active`, `lastX`, `lastY` (pointer capture and event-propagation calls
have no effect on the drag state). -/
def startDrag (st : DragState) (cx cy : ℚ) (ptype : PointerType)
    (button : ℕ) : DragState :=
  if ptype = PointerType.mouse ∧ button ≠ 0 then st
  else { st with active := true, lastX := cx, lastY := cy }

/-- The window `pointermove` handler `onMove(e)`: no-op unless a drag is
active; otherwise compute the deltas, record the pointer, set the
velocities to `delta · DRAG_SENS`, accumulate `yaw`, and accumulate and
clamp `pitch`. -/
def onMove (pi : ℚ) (st : DragState) (cx cy : ℚ) : DragState :=
  if st.active = false then st
  else
    let dx := cx - st.lastX
    let dy := cy - st.lastY
    let vY := dx * DRAG_SENS
    let vP := dy * DRAG_SENS
    { st with
      lastX := cx, lastY := cy,
      velYaw := vY, velPitch := vP,
      yaw := st.yaw + vY,
      pitch := max (-(PITCH_LIMIT pi)) (min (PITCH_LIMIT pi) (st.pitch + vP)) }

/-- The window `pointerup` handler `onUp()`: `drag.active = false`. -/
def onUp (st : DragState) : DragState := { st with active := false }

/-- `advanceDragInertia()`: early-return while dragging; otherwise
integrate the velocities into `yaw`/`pitch` (clamping pitch), damp both
velocities by `DAMPING`, and snap any velocity of magnitude `< 1e-5`
to exactly `0`. -/
def advanceDragInertia (pi : ℚ) (st : DragState) : DragState :=
  if st.active then st
  else
    let yaw := st.yaw + st.velYaw
    let pitch := max (-(PITCH_LIMIT pi)) (min (PITCH_LIMIT pi) (st.pitch + st.velPitch))
    let vY := st.velYaw * DAMPING
    let vP := st.velPitch * DAMPING
    { st with
      yaw := yaw, pitch := pitch,
      velYaw := if |vY| < 1/100000 then 0 else vY,
      velPitch := if |vP| < 1/100000 then 0 else vP }

/-- An input to the drag controller: a pointer event or one render frame's
inertia tick. -/
inductive DragEvent where
  | down (cx cy : ℚ) (ptype : PointerType) (button : ℕ)
  | move (cx cy : ℚ)
  | up
  | frame
deriving DecidableEq, Repr

/-- Dispatch one event to its handler. -/
def applyEvent (pi : ℚ) (st : DragState) : DragEvent → DragState
  | DragEvent.down cx cy t b => startDrag st cx cy t b
  | DragEvent.move cx cy => onMove pi st cx cy
  | DragEvent.up => onUp st
  | DragEvent.frame => advanceDragInertia pi st

/-- Run a sequence of events from a state. -/
def runEvents (pi : ℚ) (st : DragState) : List DragEvent → DragState
  | [] => st
  | e :: es => runEvents pi (applyEvent pi st e) es

/-!
### Strategy A — the brain-shape rejection sampler

`Math.random()` is modelled as a stream `rand : ℕ → ℚ` together with the
index of the next unconsumed draw; each stage returns the accepted point
(or `none` for a redraw) paired with the updated stream index.  The checks
appear in exactly the source's order; `sin`, `cos`, `sqrt` stand for
`Math.sin`, `Math.cos`, `Math.sqrt`.
-/

/-- The source's fold-noise expression
`Math.sin(nx + Math.cos(ny)) * Math.cos(ny + Math.sin(nz)) *
Math.sin(nz + Math.cos(nx))` with `nx = bx*12`, `ny = by*12`, `nz = bz*12`. -/
def brainNoise (sin cos : ℚ → ℚ) (xb yb zb : ℚ) : ℚ :=
  sin (xb * 12 + cos (yb * 12)) * cos (yb * 12 + sin (zb * 12)) *
    sin (zb * 12 + cos (xb * 12))

/-- Last checks of one loop iteration: the fold-noise carve
(`noise > 0.25` redraws) and the longitudinal fissure (`|bz| < 0.04`
redraws outright, `|bz| < 0.08` redraws unless
`Math.random() ≤ (|bz| − 0.04) · 25`). -/
def brainFissure (sin cos : ℚ → ℚ) (rand : ℕ → ℚ) (k : ℕ)
    (xb yb zb : ℚ) : Option Vec3 × ℕ :=
  if brainNoise sin cos xb yb zb > 0.25 then (none, k)
  else if |zb| < 0.04 then (none, k)
  else if |zb| < 0.08 then
    (if rand k > (|zb| - 0.04) * 25 then (none, k + 1)
     else (some ⟨xb, yb, zb⟩, k + 1))
  else (some ⟨xb, yb, zb⟩, k)

/-- Cerebellum-separation check: in the bottom-back region, a candidate
whose `Math.sqrt`-distance to `(−0.5, −0.5, 0)` lies in `(0.4, 0.5)`
survives only when `Math.random() ≤ 0.1`. -/
def brainCereb (sin cos sqrt : ℚ → ℚ) (rand : ℕ → ℚ) (k : ℕ)
    (xb yb zb : ℚ) : Option Vec3 × ℕ :=
  if yb < -0.2 ∧ xb < -0.2 then
    let d := sqrt ((xb + 0.5) ^ 2 + (yb + 0.5) ^ 2 + zb ^ 2)
    if 0.4 < d ∧ d < 0.5 then
      (if rand k > 0.1 then (none, k + 1)
       else brainFissure sin cos rand (k + 1) xb yb zb)
    else brainFissure sin cos rand k xb yb zb
  else brainFissure sin cos rand k xb yb zb

/-- Full predicate chain applied to one candidate `(bx, by, bz)`:
base ellipsoid, bottom-front flattening (hard cut below `y = −0.4`,
then soft gradient taper), then the cerebellum and noise/fissure stages. -/
def brainCheck (sin cos sqrt : ℚ → ℚ) (rand : ℕ → ℚ) (k : ℕ)
    (xb yb zb : ℚ) : Option Vec3 × ℕ :=
  if xb * xb + yb * yb * 1.4 + zb * zb * 1.2 > 1.0 then (none, k)
  else if yb < -0.2 ∧ xb > -0.2 then
    if yb < -0.4 then (none, k)
    else if rand k > (yb + 0.4) * 5 then (none, k + 1)
    else brainCereb sin cos sqrt rand (k + 1) xb yb zb
  else brainCereb sin cos sqrt rand k xb yb zb

/-- One iteration of the `while (true)` loop: draw a candidate uniformly
in `[-1,1]^3` via `bx = (Math.random() − 0.5) * 2` (etc.) and run the
predicate chain. -/
def brainIter (sin cos sqrt : ℚ → ℚ) (rand : ℕ → ℚ) (k : ℕ) :
    Option Vec3 × ℕ :=
  let xb := (rand k - 0.5) * 2
  let yb := (rand (k + 1) - 0.5) * 2
  let zb := (rand (k + 2) - 0.5) * 2
  brainCheck sin cos sqrt rand (k + 3) xb yb zb

/-- The rejection loop, fuel-indexed: the source's `while (true)` has no
iteration cap, so `fuel` bounds how many iterations we unfold; `none`
means the loop is still running after `fuel` redraws. -/
def sampleBrain (sin cos sqrt : ℚ → ℚ) (rand : ℕ → ℚ) :
    ℕ → ℕ → Option Vec3
  | 0, _ => none
  | Nat.succ fuel, k =>
    match brainIter sin cos sqrt rand k with
    | (some c, _) => some c
    | (none, k') => sampleBrain sin cos sqrt rand fuel k'

/-- The per-axis scaling applied to an accepted candidate:
`brain[i3] = bx * 5.5; brain[i3+1] = by * 5.0; brain[i3+2] = bz * 4.5`. -/
def scaleBrain (c : Vec3) : Vec3 := ⟨c.x * 5.5, c.y * 5.0, c.z * 4.5⟩

/-- The brain target for one particle: the accepted candidate, scaled. -/
def genBrainTarget (sin cos sqrt : ℚ → ℚ) (rand : ℕ → ℚ)
    (fuel k : ℕ) : Option Vec3 :=
  (sampleBrain sin cos sqrt rand fuel k).map scaleBrain

/-!
### Strategy B — `useBrainTargets` (mesh surface sampling with fallback)

The GLTF scene is modelled as the list of objects `scene.traverse` visits,
each carrying its `isMesh` flag; the external `MeshSurfaceSampler` is an
opaque parameter giving the `i`-th sampled surface point.
-/

/-- An object of the loaded GLTF scene, as seen by `scene.traverse`. -/
structure SceneObj where
  isMesh : Bool
deriving DecidableEq, Repr

/-- The traversal `scene.traverse((o) => { if (!brainMesh && o.isMesh)
brainMesh = o; })`: the first mesh in traversal order, if any. -/
def findMesh : List SceneObj → Option SceneObj
  | [] => none
  | o :: os => if o.isMesh then some o else findMesh os

/-- What `useBrainTargets` produces: the flat `count*3` target array
together with any console warnings emitted. -/
structure BrainTargets where
  warnings : List String
  targets : List ℚ
deriving DecidableEq, Repr

/-- `useBrainTargets(count)`: if the scene holds no mesh, warn and return
a zero-filled `Float32Array(count * 3)`; otherwise fill the array from
`count` surface samples (`sample` models `MeshSurfaceSampler.sample`). -/
def useBrainTargets (scene : List SceneObj) (count : ℕ)
    (sample : ℕ → Vec3) : BrainTargets :=
  match findMesh scene with
  | none =>
    ⟨["No mesh found in brain.glb — falling back to ellipsoid"],
      List.replicate (count * 3) 0⟩
  | some _ =>
    ⟨[], (List.range count).flatMap (fun i => [(sample i).x, (sample i).y, (sample i).z])⟩

/-! ## Claim C9 — smoothstep is a clamped monotone Hermite ease -/

lemma smoothstep_eq_of_le (a b x : ℚ) (hab : a < b) (hx : x ≤ a) :
    smoothstep a b x = 0 := by
  have hba : (0:ℚ) < b - a := by linarith
  have hq : (x - a) / (b - a) ≤ 0 :=
    div_nonpos_of_nonpos_of_nonneg (by linarith) (le_of_lt hba)
  unfold smoothstep clampQ
  rw [min_eq_right (hq.trans (by norm_num)), max_eq_left hq]
  ring

lemma smoothstep_eq_of_ge (a b x : ℚ) (hab : a < b) (hx : b ≤ x) :
    smoothstep a b x = 1 := by
  have hba : (0:ℚ) < b - a := by linarith
  have hq : (1:ℚ) ≤ (x - a) / (b - a) := by
    rw [le_div_iff₀ hba]; linarith
  unfold smoothstep clampQ
  rw [min_eq_left hq, max_eq_right (by norm_num : (0:ℚ) ≤ 1)]
  ring

lemma smoothstep_mono (a b x y : ℚ) (hab : a < b) (hxy : x ≤ y) :
    smoothstep a b x ≤ smoothstep a b y := by
  have hba : (0:ℚ) < b - a := by linarith
  unfold smoothstep clampQ
  set qx := (x - a) / (b - a) with hqx
  set qy := (y - a) / (b - a) with hqy
  have hq : qx ≤ qy := by
    rw [hqx, hqy, div_le_div_iff_of_pos_right hba]; linarith
  set t1 := max 0 (min 1 qx) with ht1
  set t2 := max 0 (min 1 qy) with ht2
  have h01 : (0:ℚ) ≤ t1 := le_max_left _ _
  have h02 : (0:ℚ) ≤ t2 := le_max_left _ _
  have h11 : t1 ≤ 1 := max_le (by norm_num) (min_le_left _ _)
  have h12 : t2 ≤ 1 := max_le (by norm_num) (min_le_left _ _)
  have h1le2 : t1 ≤ t2 := max_le_max le_rfl (min_le_min le_rfl hq)
  show t1 * t1 * (3 - 2 * t1) ≤ t2 * t2 * (3 - 2 * t2)
  nlinarith [mul_nonneg (mul_nonneg (sub_nonneg.2 h1le2) h01) (sub_nonneg.2 h11),
    mul_nonneg (mul_nonneg (sub_nonneg.2 h1le2) h02) (sub_nonneg.2 h12),
    mul_nonneg (mul_nonneg (sub_nonneg.2 h1le2) h01) (sub_nonneg.2 h12),
    mul_nonneg (mul_nonneg (sub_nonneg.2 h1le2) h02) (sub_nonneg.2 h11)]

/-- C9: for all `a < b`, `smoothstep a b` is monotone non-decreasing in
`x` on `[a,b]`, returns exactly `0` for every `x ≤ a`, and exactly `1`
for every `x ≥ b`. -/
theorem C9_smoothstep_shape (a b : ℚ) (hab : a < b) :
    (∀ x y, a ≤ x → x ≤ y → y ≤ b → smoothstep a b x ≤ smoothstep a b y) ∧
    (∀ x, x ≤ a → smoothstep a b x = 0) ∧
    (∀ x, b ≤ x → smoothstep a b x = 1) :=
  ⟨fun x y _ hxy _ => smoothstep_mono a b x y hab hxy,
   fun x hx => smoothstep_eq_of_le a b x hab hx,
   fun x hx => smoothstep_eq_of_ge a b x hab hx⟩

/-- Witness for C9 at `a = 0`, `b = 1`. -/
theorem C9_smoothstep_shape_witness :
    (0:ℚ) < 1 ∧ smoothstep 0 1 (1/4) ≤ smoothstep 0 1 (3/4) ∧
      smoothstep 0 1 (-2) = 0 ∧ smoothstep 0 1 5 = 1 := by
  have h := C9_smoothstep_shape 0 1 (by norm_num)
  exact ⟨by norm_num,
    h.1 (1/4) (3/4) (by norm_num) (by norm_num) (by norm_num),
    h.2.1 (-2) (by norm_num), h.2.2 5 (by norm_num)⟩

/-! ## Claim C5 — the black box's opacity ramp -/

/-- `boxOpacity` coincides everywhere with a clamped min of two linear
ramps — the form that makes piecewise-linearity and continuity evident. -/
lemma boxOpacity_eq_trapezoid (s : ℚ) :
    boxOpacity s = max 0 (min 1 (min ((s - 0.1) * 5) ((0.5 - s) * 10))) := by
  unfold boxOpacity
  split_ifs with h1 h2 h3
  · obtain ⟨hl, hr⟩ := h1
    rw [min_eq_left (by linarith : (s - 0.1) * 5 ≤ (0.5 - s) * 10),
      min_eq_right (by linarith : (s - 0.1) * 5 ≤ 1),
      max_eq_right (by linarith : (0:ℚ) ≤ (s - 0.1) * 5)]
    ring
  · obtain ⟨hl, hr⟩ := h2
    rw [min_eq_left (le_min (by linarith) (by linarith)),
      max_eq_right (by norm_num : (0:ℚ) ≤ 1)]
  · obtain ⟨hl, hr⟩ := h3
    rw [min_eq_right (by linarith : (0.5 - s) * 10 ≤ (s - 0.1) * 5),
      min_eq_right (by linarith : (0.5 - s) * 10 ≤ 1),
      max_eq_right (by linarith : (0:ℚ) ≤ (0.5 - s) * 10)]
    ring
  · rcases le_or_lt s 0.1 with hs | hs
    · have hA : (s - 0.1) * 5 ≤ 0 := by linarith
      have : min 1 (min ((s - 0.1) * 5) ((0.5 - s) * 10)) ≤ 0 :=
        le_trans (min_le_right _ _) (le_trans (min_le_left _ _) hA)
      rw [max_eq_left this]
    · have hs3 : ¬(s ≤ 0.3) := fun h => h1 ⟨hs, h⟩
      have hs4 : ¬(s ≤ 0.4) := fun h => h2 ⟨by linarith [not_le.1 hs3], h⟩
      have hs5 : ¬(s ≤ 0.5) := fun h => h3 ⟨by linarith [not_le.1 hs4], h⟩
      have hB : (0.5 - s) * 10 ≤ 0 := by linarith [not_le.1 hs5]
      have : min 1 (min ((s - 0.1) * 5) ((0.5 - s) * 10)) ≤ 0 :=
        le_trans (min_le_right _ _) (le_trans (min_le_right _ _) hB)
      rw [max_eq_left this]

/-- `boxOpacity` is 10-Lipschitz, hence continuous piecewise-linear. -/
lemma boxOpacity_lipschitz (s t : ℚ) :
    |boxOpacity s - boxOpacity t| ≤ 10 * |s - t| := by
  rw [boxOpacity_eq_trapezoid s, boxOpacity_eq_trapezoid t]
  have e1 : |(s - 0.1) * 5 - (t - 0.1) * 5| = 5 * |s - t| := by
    rw [show (s - 0.1) * 5 - (t - 0.1) * 5 = 5 * (s - t) by ring, abs_mul]
    norm_num
  have e2 : |(0.5 - s) * 10 - (0.5 - t) * 10| = 10 * |s - t| := by
    rw [show (0.5 - s) * 10 - (0.5 - t) * 10 = 10 * (t - s) by ring, abs_mul,
      abs_sub_comm t s]
    norm_num
  calc |max 0 (min 1 (min ((s - 0.1) * 5) ((0.5 - s) * 10))) -
        max 0 (min 1 (min ((t - 0.1) * 5) ((0.5 - t) * 10)))|
      ≤ max |(0:ℚ) - 0|
          |min 1 (min ((s - 0.1) * 5) ((0.5 - s) * 10)) -
           min 1 (min ((t - 0.1) * 5) ((0.5 - t) * 10))| :=
        abs_max_sub_max_le_max _ _ _ _
    _ = |min 1 (min ((s - 0.1) * 5) ((0.5 - s) * 10)) -
         min 1 (min ((t - 0.1) * 5) ((0.5 - t) * 10))| := by
        simp
    _ ≤ max |(1:ℚ) - 1|
          |min ((s - 0.1) * 5) ((0.5 - s) * 10) -
           min ((t - 0.1) * 5) ((0.5 - t) * 10)| :=
        abs_min_sub_min_le_max _ _ _ _
    _ = |min ((s - 0.1) * 5) ((0.5 - s) * 10) -
         min ((t - 0.1) * 5) ((0.5 - t) * 10)| := by
        simp
    _ ≤ max |(s - 0.1) * 5 - (t - 0.1) * 5| |(0.5 - s) * 10 - (0.5 - t) * 10| :=
        abs_min_sub_min_le_max _ _ _ _
    _ ≤ 10 * |s - t| := by
        rw [e1, e2]
        exact max_le (by nlinarith [abs_nonneg (s - t)]) le_rfl

/-- C5: the box object's opacity is exactly the stated piecewise-linear
function of scroll: `0` for `s ≤ 0.1`, `(s−0.1)/0.2` on `(0.1, 0.3]`,
`1` on `(0.3, 0.4]`, `1 − (s−0.4)/0.1` on `(0.4, 0.5]`, `0` for
`s > 0.5`; it is `0` at `s = 0` and `s = 1`, exactly `1` on the whole of
`[0.3, 0.4]`, and 10-Lipschitz (hence continuous piecewise-linear). -/
theorem C5_box_opacity_profile :
    (∀ s : ℚ, s ≤ 0.1 → boxOpacity s = 0) ∧
    (∀ s : ℚ, 0.1 < s → s ≤ 0.3 → boxOpacity s = (s - 0.1) / 0.2) ∧
    (∀ s : ℚ, 0.3 < s → s ≤ 0.4 → boxOpacity s = 1) ∧
    (∀ s : ℚ, 0.4 < s → s ≤ 0.5 → boxOpacity s = 1 - (s - 0.4) / 0.1) ∧
    (∀ s : ℚ, 0.5 < s → boxOpacity s = 0) ∧
    boxOpacity 0 = 0 ∧ boxOpacity 1 = 0 ∧
    (∀ s : ℚ, 0.3 ≤ s → s ≤ 0.4 → boxOpacity s = 1) ∧
    (∀ s t : ℚ, |boxOpacity s - boxOpacity t| ≤ 10 * |s - t|) := by
  refine ⟨?_, ?_, ?_, ?_, ?_, by norm_num [boxOpacity], by norm_num [boxOpacity],
    ?_, boxOpacity_lipschitz⟩
  · intro s hs
    unfold boxOpacity
    rw [if_neg (fun h => absurd hs (not_le.2 h.1)),
      if_neg (fun h => absurd hs (not_le.2 (by linarith [h.1]))),
      if_neg (fun h => absurd hs (not_le.2 (by linarith [h.1])))]
  · intro s h1 h2
    unfold boxOpacity
    rw [if_pos ⟨h1, h2⟩]
  · intro s h1 h2
    unfold boxOpacity
    rw [if_neg (fun h => absurd h1 (not_lt.2 (by linarith [h.2]))), if_pos ⟨h1, h2⟩]
  · intro s h1 h2
    unfold boxOpacity
    rw [if_neg (fun h => absurd h1 (not_lt.2 (by linarith [h.2]))),
      if_neg (fun h => absurd h1 (not_lt.2 (by linarith [h.2]))), if_pos ⟨h1, h2⟩]
  · intro s h1
    unfold boxOpacity
    rw [if_neg (fun h => absurd h1 (not_lt.2 (by linarith [h.2]))),
      if_neg (fun h => absurd h1 (not_lt.2 (by linarith [h.2]))),
      if_neg (fun h => absurd h1 (not_lt.2 (by linarith [h.2])))]
  · intro s h1 h2
    rw [boxOpacity_eq_trapezoid s,
      min_eq_left (le_min (by linarith) (by linarith)),
      max_eq_right (by norm_num : (0:ℚ) ≤ 1)]

/-! ## Claim C3 — box rotation vs. particle rotation -/

/-- C3 counterexample: on a frame with elapsed time 20 (taking `pi = 3`,
scroll `s = 0`, shared `yaw = 0`), the particle group's y-rotation is
`20·0.05 = 1` while the box's y-rotation is `0` — the box formula omits
the time-driven base spin, so the orientations differ. -/
theorem C3_rotation_cex : particleRotY 3 20 0 0 ≠ boxRotY 3 0 0 := by
  norm_num [particleRotY, boxRotY]

/-- C3 amended: the two x-rotations are computed by the identical formula,
and the box's y-rotation equals the particle group's y-rotation minus the
time-driven base spin `time·0.05` (so they agree exactly when that spin
term is zero, e.g. at `time = 0`). -/
theorem C3_rotation_amended (pi time s yaw pitch : ℚ) :
    boxRotX pi s pitch = particleRotX pi s pitch ∧
    boxRotY pi s yaw = particleRotY pi time s yaw - time * 0.05 ∧
    boxRotY pi s yaw = particleRotY pi 0 s yaw := by
  refine ⟨rfl, ?_, ?_⟩ <;> unfold boxRotY particleRotY <;> ring

/-! ## Claim C2 — blend weights and rendered position at s = 0.3 and 0.7 -/

lemma vmix_zero (p q : Vec3) : vmix p q 0 = p := by
  cases p; cases q; simp [vmix, mixQ]

lemma vmix_one (p q : Vec3) : vmix p q 1 = q := by
  cases p; cases q; simp [vmix, mixQ]

lemma smoothstep_qtr : smoothstep 0.1 0.3 0.3 = 1 := by
  norm_num [smoothstep, clampQ]

lemma smoothstep_low : smoothstep 0.5 0.7 0.3 = 0 := by
  norm_num [smoothstep, clampQ]

lemma smoothstep_high : smoothstep 0.5 0.7 0.7 = 1 := by
  norm_num [smoothstep, clampQ]

lemma smoothstep_sat : smoothstep 0.1 0.3 0.7 = 1 := by
  norm_num [smoothstep, clampQ]

lemma morphBlend_at_03 (pRandom pBox pBrain : Vec3) :
    morphBlend 0.3 pRandom pBox pBrain = pBox := by
  simp only [morphBlend, smoothstep_qtr, smoothstep_low, vmix_one, vmix_zero]

lemma morphBlend_at_07 (pRandom pBox pBrain : Vec3) :
    morphBlend 0.7 pRandom pBox pBrain = pBrain := by
  simp only [morphBlend, smoothstep_high, vmix_one]

/-- C2 counterexample: at `s = 0.3` the shader still adds the floating
oscillation, damped only to the factor `1 − 0.9·t1 = 0.1`, so the rendered
position is not the box target.  Taking the oscillation primitives with
sin = 0 and cos = 1 — their exact values at phase `0`, i.e. `time = 0`,
`offset = 0` — box target `(0,0,0)` renders at `(0.01, 0, 0) ≠ (0,0,0)`. -/
theorem C2_position_cex :
    vertexPos (fun _ => 0) (fun _ => 1) 0.3 0 0
      ⟨0, 0, 0⟩ ⟨0, 0, 0⟩ ⟨1, 1, 1⟩ ≠ (⟨0, 0, 0⟩ : Vec3) := by
  simp only [vertexPos, smoothstep_qtr, morphBlend_at_03, ne_eq, Vec3.mk.injEq]
  norm_num

/-- C2 amended: at `s = 0.3` the blend weights are `t1 = 1`, `t2 = 0` and
the morph-blend position (before the floating-noise offset) equals the box
target exactly; at `s = 0.7`, `t2 = 1` and the blend equals the brain
target regardless of `t1`; the rendered position additionally carries the
x/y oscillation, whose damping `1 − 0.9·t1` has reached `0.1` (offsets
`cos(time + offset)/100` on x and `sin(1.5·time + offset)/50` on y), so it
equals the respective target only when those oscillation terms vanish. -/
theorem C2_blend_amended (sin cos : ℚ → ℚ) (time offset : ℚ)
    (pRandom pBox pBrain : Vec3) :
    smoothstep 0.1 0.3 0.3 = 1 ∧ smoothstep 0.5 0.7 0.3 = 0 ∧
    morphBlend 0.3 pRandom pBox pBrain = pBox ∧
    smoothstep 0.5 0.7 0.7 = 1 ∧
    morphBlend 0.7 pRandom pBox pBrain = pBrain ∧
    vertexPos sin cos 0.3 time offset pRandom pBox pBrain =
      ⟨pBox.x + cos (time * 1.0 + offset) * (1/100),
       pBox.y + sin (time * 1.5 + offset) * (1/50), pBox.z⟩ ∧
    vertexPos sin cos 0.7 time offset pRandom pBox pBrain =
      ⟨pBrain.x + cos (time * 1.0 + offset) * (1/100),
       pBrain.y + sin (time * 1.5 + offset) * (1/50), pBrain.z⟩ := by
  refine ⟨smoothstep_qtr, smoothstep_low, morphBlend_at_03 _ _ _,
    smoothstep_high, morphBlend_at_07 _ _ _, ?_, ?_⟩
  · simp only [vertexPos, smoothstep_qtr, morphBlend_at_03, Vec3.mk.injEq]
    refine ⟨by ring, by ring, trivial⟩
  · simp only [vertexPos, smoothstep_sat, morphBlend_at_07, Vec3.mk.injEq]
    refine ⟨by ring, by ring, trivial⟩

/-! ## Claim C8 — Strategy B fallback when the asset holds no mesh -/

/-- C8: when the loaded scene contains no mesh, `useBrainTargets` returns
the zero-filled flat array of length `count * 3` together with the
recoverable warning, instead of throwing or aborting. -/
theorem C8_no_mesh_fallback (scene : List SceneObj) (count : ℕ)
    (sample : ℕ → Vec3) (h : findMesh scene = none) :
    useBrainTargets scene count sample =
      ⟨["No mesh found in brain.glb — falling back to ellipsoid"],
        List.replicate (count * 3) 0⟩ ∧
    (useBrainTargets scene count sample).targets.length = count * 3 ∧
    (useBrainTargets scene count sample).warnings ≠ [] := by
  unfold useBrainTargets
  rw [h]
  exact ⟨rfl, by simp, by simp⟩

/-- Witness for C8: an empty scene with 2 requested particles. -/
theorem C8_no_mesh_fallback_witness :
    findMesh [] = none ∧
    useBrainTargets [] 2 (fun _ => ⟨0, 0, 0⟩) =
      ⟨["No mesh found in brain.glb — falling back to ellipsoid"],
        List.replicate (2 * 3) 0⟩ := by
  exact ⟨rfl, (C8_no_mesh_fallback [] 2 (fun _ => ⟨0, 0, 0⟩) rfl).1⟩

/-! ## Claim C10 — pointer-down freezes, release resumes coasting -/

/-- C10: `startDrag` leaves `yaw`, `pitch`, `velYaw`, `velPitch`
unchanged (it touches only `active`, `lastX`, `lastY`); the per-frame
inertia step is the identity while a drag is active, so a pointer-down
with no subsequent move freezes the orientation; and after release, the
next inertia step produces the same yaw/pitch/velocity values as it would
from the pre-drag state — coasting resumes with the pre-drag velocities. -/
theorem C10_startDrag_frame_effect (pi : ℚ) (st : DragState) (cx cy : ℚ)
    (t : PointerType) (b : ℕ) :
    ((startDrag st cx cy t b).yaw = st.yaw ∧
     (startDrag st cx cy t b).pitch = st.pitch ∧
     (startDrag st cx cy t b).velYaw = st.velYaw ∧
     (startDrag st cx cy t b).velPitch = st.velPitch) ∧
    (∀ s : DragState, s.active = true → advanceDragInertia pi s = s) ∧
    (¬(t = PointerType.mouse ∧ b ≠ 0) →
      advanceDragInertia pi (startDrag st cx cy t b) = startDrag st cx cy t b) ∧
    ((advanceDragInertia pi (onUp (startDrag st cx cy t b))).yaw =
       (advanceDragInertia pi (onUp st)).yaw ∧
     (advanceDragInertia pi (onUp (startDrag st cx cy t b))).pitch =
       (advanceDragInertia pi (onUp st)).pitch ∧
     (advanceDragInertia pi (onUp (startDrag st cx cy t b))).velYaw =
       (advanceDragInertia pi (onUp st)).velYaw ∧
     (advanceDragInertia pi (onUp (startDrag st cx cy t b))).velPitch =
       (advanceDragInertia pi (onUp st)).velPitch) := by
  have hact : ∀ s : DragState, s.active = true → advanceDragInertia pi s = s := by
    intro s hs
    unfold advanceDragInertia
    rw [if_pos hs]
  unfold startDrag
  split_ifs with hb
  · exact ⟨⟨rfl, rfl, rfl, rfl⟩, hact, fun h => absurd hb h,
      rfl, rfl, rfl, rfl⟩
  · refine ⟨⟨rfl, rfl, rfl, rfl⟩, hact, fun _ => hact _ rfl, ?_⟩
    simp [onUp, advanceDragInertia]

/-- Witness for C10 at a concrete active drag state. -/
theorem C10_startDrag_frame_effect_witness :
    (startDrag ⟨1, 2, 3, 4, true, 5, 6⟩ 7 8 PointerType.touch 0).velYaw = 3 ∧
    advanceDragInertia 3 (⟨1, 2, 3, 4, true, 5, 6⟩ : DragState) =
      ⟨1, 2, 3, 4, true, 5, 6⟩ ∧
    advanceDragInertia 3 (startDrag ⟨1, 2, 3, 4, true, 5, 6⟩ 7 8 PointerType.touch 0) =
      startDrag ⟨1, 2, 3, 4, true, 5, 6⟩ 7 8 PointerType.touch 0 ∧
    (advanceDragInertia 3 (onUp (startDrag ⟨1, 2, 3, 4, true, 5, 6⟩ 7 8 PointerType.touch 0))).velYaw =
      (advanceDragInertia 3 (onUp (⟨1, 2, 3, 4, true, 5, 6⟩ : DragState))).velYaw := by
  have h := C10_startDrag_frame_effect 3 ⟨1, 2, 3, 4, true, 5, 6⟩ 7 8 PointerType.touch 0
  exact ⟨h.1.2.2.1.trans rfl, h.2.1 _ rfl, h.2.2.1 (fun hc => hc.2 rfl),
    h.2.2.2.2.2.1⟩

/-! ## Claim C7 — the pitch clamp is an invariant -/

lemma clamp_pitch_bound (pi v : ℚ) (hpi : 0 ≤ pi) :
    |max (-(PITCH_LIMIT pi)) (min (PITCH_LIMIT pi) v)| ≤ PITCH_LIMIT pi := by
  have hL : 0 ≤ PITCH_LIMIT pi := by
    unfold PITCH_LIMIT
    nlinarith
  rw [abs_le]
  exact ⟨le_max_left _ _, max_le (by linarith) (min_le_left _ _)⟩

lemma applyEvent_pitch_bound (pi : ℚ) (hpi : 0 ≤ pi) (st : DragState)
    (h : |st.pitch| ≤ PITCH_LIMIT pi) (e : DragEvent) :
    |(applyEvent pi st e).pitch| ≤ PITCH_LIMIT pi := by
  cases e with
  | down cx cy t b =>
    simp only [applyEvent]
    unfold startDrag
    split_ifs <;> exact h
  | move cx cy =>
    simp only [applyEvent]
    unfold onMove
    split_ifs
    · exact h
    · exact clamp_pitch_bound pi _ hpi
  | up => exact h
  | frame =>
    simp only [applyEvent]
    unfold advanceDragInertia
    split_ifs
    · exact h
    · exact clamp_pitch_bound pi _ hpi

lemma runEvents_pitch_bound (pi : ℚ) (hpi : 0 ≤ pi) :
    ∀ (es : List DragEvent) (st : DragState),
      |st.pitch| ≤ PITCH_LIMIT pi →
      |(runEvents pi st es).pitch| ≤ PITCH_LIMIT pi
  | [], _, h => h
  | e :: es, st, h =>
    runEvents_pitch_bound pi hpi es (applyEvent pi st e)
      (applyEvent_pitch_bound pi hpi st h e)

/-- C7: from the initial orientation state, after any sequence of
pointer-down, pointer-move, pointer-up events and per-frame inertia
steps, the pitch always lies within `[−0.45·π, 0.45·π]`
(`pi` is the numeric value of `Math.PI`, a nonnegative constant). -/
theorem C7_pitch_invariant (pi : ℚ) (hpi : 0 ≤ pi) (es : List DragEvent) :
    -(0.45 * pi) ≤ (runEvents pi initDrag es).pitch ∧
      (runEvents pi initDrag es).pitch ≤ 0.45 * pi := by
  have h0 : |initDrag.pitch| ≤ PITCH_LIMIT pi := by
    unfold initDrag PITCH_LIMIT
    simp only [abs_zero]
    nlinarith
  have h := runEvents_pitch_bound pi hpi es initDrag h0
  rw [abs_le] at h
  unfold PITCH_LIMIT at h
  constructor <;> [linarith [h.1]; linarith [h.2]]

/-- Witness for C7: a concrete event sequence (grab, huge single-frame
move, release, two inertia frames) at `pi = 22/7`. -/
theorem C7_pitch_invariant_witness :
    (0:ℚ) ≤ 22/7 ∧
    (-(0.45 * (22/7 : ℚ)) ≤
        (runEvents (22/7) initDrag
          [DragEvent.down 0 0 PointerType.touch 0,
           DragEvent.move 100 (-100000), DragEvent.up,
           DragEvent.frame, DragEvent.frame]).pitch ∧
      (runEvents (22/7) initDrag
          [DragEvent.down 0 0 PointerType.touch 0,
           DragEvent.move 100 (-100000), DragEvent.up,
           DragEvent.frame, DragEvent.frame]).pitch ≤ 0.45 * (22/7 : ℚ)) :=
  ⟨by norm_num, C7_pitch_invariant (22/7) (by norm_num) _⟩

/-! ## Claim C6 — velYaw after a 100-pixel drag, then geometric decay -/

lemma advance_velYaw_step (pi : ℚ) (st : DragState) (h : st.active = false) :
    (advanceDragInertia pi st).velYaw =
      (if |st.velYaw * DAMPING| < 1/100000 then 0 else st.velYaw * DAMPING) ∧
    (advanceDragInertia pi st).active = false := by
  unfold advanceDragInertia
  rw [if_neg (by simp [h])]
  exact ⟨rfl, h⟩

lemma decay_half_life : ((1:ℚ)/100000) ≤ 0.4 * 0.9 ^ 100 ∧
    (0.4:ℚ) * 0.9 ^ 101 < 1/100000 := by
  norm_num

set_option maxRecDepth 4096 in
lemma velYaw_decay_formula (pi : ℚ) (st : DragState) (ha : st.active = false)
    (hv : st.velYaw = 0.4) (n : ℕ) :
    ((advanceDragInertia pi)^[n] st).velYaw =
      (if n ≤ 100 then 0.4 * 0.9 ^ n else 0) := by
  have key : ∀ m : ℕ, ((advanceDragInertia pi)^[m] st).active = false ∧
      ((advanceDragInertia pi)^[m] st).velYaw =
        (if m ≤ 100 then 0.4 * 0.9 ^ m else 0) := by
    intro m
    induction m with
    | zero => simpa using ⟨ha, by simp [hv]⟩
    | succ m ih =>
      obtain ⟨iha, ihv⟩ := ih
      rw [Function.iterate_succ_apply']
      obtain ⟨hstep, hact⟩ := advance_velYaw_step pi _ iha
      refine ⟨hact, ?_⟩
      rw [hstep, ihv]
      unfold DAMPING
      rcases le_or_lt (m + 1) 100 with hm | hm
      · have hm' : m ≤ 100 := by omega
        rw [if_pos hm', if_pos hm]
        have hpow : (0.9:ℚ) ^ 100 ≤ 0.9 ^ (m + 1) :=
          pow_le_pow_of_le_one (by norm_num) (by norm_num) hm
        have hlow := decay_half_life.1
        have hge : ¬ |(0.4:ℚ) * 0.9 ^ m * 0.90| < 1/100000 := by
          rw [not_lt, abs_of_nonneg (by positivity)]
          rw [pow_succ (0.9:ℚ) m] at hpow
          have h4 := mul_le_mul_of_nonneg_left hpow (by norm_num : (0:ℚ) ≤ 0.4)
          calc (1:ℚ)/100000 ≤ 0.4 * 0.9 ^ 100 := hlow
            _ ≤ 0.4 * (0.9 ^ m * 0.9) := h4
            _ = 0.4 * 0.9 ^ m * 0.90 := by ring
        rw [if_neg hge]
        ring
      · rcases le_or_lt m 100 with hm2 | hm2
        · have hm3 : m = 100 := by omega
          subst hm3
          rw [if_pos (le_refl 100), if_neg (by omega : ¬ 100 + 1 ≤ 100)]
          have hlt : |(0.4:ℚ) * 0.9 ^ 100 * 0.90| < 1/100000 := by
            rw [abs_of_nonneg (by positivity)]
            calc (0.4:ℚ) * 0.9 ^ 100 * 0.90 = 0.4 * 0.9 ^ 101 := by ring
              _ < 1/100000 := decay_half_life.2
          rw [if_pos hlt]
        · rw [if_neg (by omega : ¬ m ≤ 100), if_neg (by omega : ¬ m + 1 ≤ 100)]
          norm_num
  exact (key n).2

/-- C6: during an active drag, a pointer-move 100 pixels to the right sets
`velYaw` to exactly `0.4 = 100 × 0.004`; after release, the `n`-th inertia
frame leaves `velYaw = 0.4·0.9ⁿ` while that magnitude stays at least
`1e-5` — which holds up to `n = 100` — and snaps it to exactly `0` at
frame `101` (within the claimed ≈131-frame bound). -/
theorem C6_drag_release_decay (pi : ℚ) (st : DragState)
    (h : st.active = true) :
    (onMove pi st (st.lastX + 100) st.lastY).velYaw = 0.4 ∧
    (∀ n : ℕ,
      ((advanceDragInertia pi)^[n]
          (onUp (onMove pi st (st.lastX + 100) st.lastY))).velYaw =
        (if n ≤ 100 then 0.4 * 0.9 ^ n else 0)) ∧
    ((1:ℚ)/100000) ≤ 0.4 * 0.9 ^ 100 ∧ (0.4:ℚ) * 0.9 ^ 101 < 1/100000 ∧
    ((advanceDragInertia pi)^[101]
        (onUp (onMove pi st (st.lastX + 100) st.lastY))).velYaw = 0 ∧
    (101:ℕ) ≤ 131 := by
  have hmv : (onMove pi st (st.lastX + 100) st.lastY).velYaw = 0.4 := by
    unfold onMove
    rw [if_neg (by simp [h])]
    show (st.lastX + 100 - st.lastX) * DRAG_SENS = 0.4
    unfold DRAG_SENS
    ring
  have hup : (onUp (onMove pi st (st.lastX + 100) st.lastY)).active = false := rfl
  have hupv : (onUp (onMove pi st (st.lastX + 100) st.lastY)).velYaw = 0.4 := hmv
  have hdecay := fun n =>
    velYaw_decay_formula pi (onUp (onMove pi st (st.lastX + 100) st.lastY)) hup hupv n
  refine ⟨hmv, hdecay, decay_half_life.1, decay_half_life.2, ?_, by omega⟩
  rw [hdecay 101, if_neg (by omega)]

/-- Witness for C6: concrete pre-drag state `(yaw pitch vels = 0, active,
pointer at (50, 60))`, `pi = 3`. -/
theorem C6_drag_release_decay_witness :
    (onMove 3 ⟨0, 0, 0, 0, true, 50, 60⟩
        ((⟨0, 0, 0, 0, true, 50, 60⟩ : DragState).lastX + 100)
        (⟨0, 0, 0, 0, true, 50, 60⟩ : DragState).lastY).velYaw = 0.4 ∧
    ((advanceDragInertia 3)^[101]
        (onUp (onMove 3 ⟨0, 0, 0, 0, true, 50, 60⟩
          ((⟨0, 0, 0, 0, true, 50, 60⟩ : DragState).lastX + 100)
          (⟨0, 0, 0, 0, true, 50, 60⟩ : DragState).lastY))).velYaw = 0 := by
  have h := C6_drag_release_decay 3 ⟨0, 0, 0, 0, true, 50, 60⟩ rfl
  exact ⟨h.1, h.2.2.2.2.1⟩

/-! ## Claim C1 — soundness of the accepted brain candidates -/

lemma brainFissure_sound (sin cos : ℚ → ℚ) (rand : ℕ → ℚ) (k : ℕ)
    (xb yb zb : ℚ) (c : Vec3) (j : ℕ)
    (h : brainFissure sin cos rand k xb yb zb = (some c, j)) :
    c = ⟨xb, yb, zb⟩ ∧ brainNoise sin cos xb yb zb ≤ 0.25 ∧ 0.04 ≤ |zb| := by
  unfold brainFissure at h
  split_ifs at h with h1 h2 h3 h4 <;> simp at h <;>
    exact ⟨h.1.symm, not_lt.1 h1, not_lt.1 h2⟩

lemma brainCereb_sound (sin cos sqrt : ℚ → ℚ) (rand : ℕ → ℚ) (k : ℕ)
    (xb yb zb : ℚ) (c : Vec3) (j : ℕ)
    (h : brainCereb sin cos sqrt rand k xb yb zb = (some c, j)) :
    c = ⟨xb, yb, zb⟩ ∧ brainNoise sin cos xb yb zb ≤ 0.25 ∧ 0.04 ≤ |zb| := by
  simp only [brainCereb] at h
  split_ifs at h with h1 h2 h3 <;>
    first
      | simp at h
      | exact brainFissure_sound _ _ _ _ _ _ _ _ _ h

lemma brainCheck_sound (sin cos sqrt : ℚ → ℚ) (rand : ℕ → ℚ) (k : ℕ)
    (xb yb zb : ℚ) (c : Vec3) (j : ℕ)
    (h : brainCheck sin cos sqrt rand k xb yb zb = (some c, j)) :
    c = ⟨xb, yb, zb⟩ ∧
    xb * xb + yb * yb * 1.4 + zb * zb * 1.2 ≤ 1.0 ∧
    ¬(yb < -0.2 ∧ xb > -0.2 ∧ yb < -0.4) ∧
    brainNoise sin cos xb yb zb ≤ 0.25 ∧ 0.04 ≤ |zb| := by
  unfold brainCheck at h
  split_ifs at h with h1 h2 h3 h4
  · simp at h
  · simp at h
  · simp at h
  · obtain ⟨hc, hn, hf⟩ := brainCereb_sound _ _ _ _ _ _ _ _ _ _ h
    exact ⟨hc, not_lt.1 h1, fun hx => h3 hx.2.2, hn, hf⟩
  · obtain ⟨hc, hn, hf⟩ := brainCereb_sound _ _ _ _ _ _ _ _ _ _ h
    exact ⟨hc, not_lt.1 h1, fun hx => h2 ⟨hx.1, hx.2.1⟩, hn, hf⟩

lemma brainIter_sound (sin cos sqrt : ℚ → ℚ) (rand : ℕ → ℚ) (k : ℕ)
    (c : Vec3) (j : ℕ)
    (h : brainIter sin cos sqrt rand k = (some c, j)) :
    c = ⟨(rand k - 0.5) * 2, (rand (k + 1) - 0.5) * 2, (rand (k + 2) - 0.5) * 2⟩ ∧
    c.x * c.x + c.y * c.y * 1.4 + c.z * c.z * 1.2 ≤ 1.0 ∧
    ¬(c.y < -0.2 ∧ c.x > -0.2 ∧ c.y < -0.4) ∧
    brainNoise sin cos c.x c.y c.z ≤ 0.25 ∧ 0.04 ≤ |c.z| := by
  unfold brainIter at h
  obtain ⟨hc, hell, hflat, hn, hf⟩ := brainCheck_sound _ _ _ _ _ _ _ _ _ _ h
  subst hc
  exact ⟨rfl, hell, hflat, hn, hf⟩

lemma sampleBrain_sound (sin cos sqrt : ℚ → ℚ) (rand : ℕ → ℚ)
    (hr : ∀ n, 0 ≤ rand n ∧ rand n < 1) :
    ∀ (fuel k : ℕ) (c : Vec3),
      sampleBrain sin cos sqrt rand fuel k = some c →
      (-1 ≤ c.x ∧ c.x ≤ 1) ∧ (-1 ≤ c.y ∧ c.y ≤ 1) ∧ (-1 ≤ c.z ∧ c.z ≤ 1) ∧
      c.x * c.x + c.y * c.y * 1.4 + c.z * c.z * 1.2 ≤ 1.0 ∧
      ¬(c.y < -0.2 ∧ c.x > -0.2 ∧ c.y < -0.4) ∧
      brainNoise sin cos c.x c.y c.z ≤ 0.25 ∧ 0.04 ≤ |c.z|
  | 0, k, c, h => by simp [sampleBrain] at h
  | fuel + 1, k, c, h => by
    rw [sampleBrain] at h
    rcases hb : brainIter sin cos sqrt rand k with ⟨o, j⟩
    rw [hb] at h
    cases o with
    | some c0 =>
      simp only at h
      cases h
      obtain ⟨hc, hell, hflat, hn, hf⟩ := brainIter_sound _ _ _ _ _ _ _ hb
      refine ⟨?_, ?_, ?_, hell, hflat, hn, hf⟩ <;> rw [hc] <;> dsimp only
      · obtain ⟨hl, hu⟩ := hr k
        constructor <;> linarith
      · obtain ⟨hl, hu⟩ := hr (k + 1)
        constructor <;> linarith
      · obtain ⟨hl, hu⟩ := hr (k + 2)
        constructor <;> linarith
    | none =>
      simp only at h
      exact sampleBrain_sound sin cos sqrt rand hr fuel j c h

/-- C1: every brain target Strategy A produces is the per-axis scaling
(×5.5, ×5.0, ×4.5) of an accepted candidate `(x, y, z)` drawn from
`[-1,1]³` which, before scaling, satisfies the base-ellipsoid inequality
`x² + 1.4y² + 1.2z² ≤ 1`, the fissure bound `|z| ≥ 0.04`, the hard
bottom-front cut `¬(y < −0.2 ∧ x > −0.2 ∧ y < −0.4)`, and the fold-noise
bound `sin(12x + cos 12y)·cos(12y + sin 12z)·sin(12z + cos 12x) ≤ 0.25`. -/
theorem C1_brain_target_sound (sin cos sqrt : ℚ → ℚ) (rand : ℕ → ℚ)
    (hr : ∀ n, 0 ≤ rand n ∧ rand n < 1) (fuel k : ℕ) (t : Vec3)
    (h : genBrainTarget sin cos sqrt rand fuel k = some t) :
    ∃ c : Vec3, sampleBrain sin cos sqrt rand fuel k = some c ∧
      t = scaleBrain c ∧
      (-1 ≤ c.x ∧ c.x ≤ 1) ∧ (-1 ≤ c.y ∧ c.y ≤ 1) ∧ (-1 ≤ c.z ∧ c.z ≤ 1) ∧
      c.x ^ 2 + 1.4 * c.y ^ 2 + 1.2 * c.z ^ 2 ≤ 1.0 ∧
      0.04 ≤ |c.z| ∧
      ¬(c.y < -0.2 ∧ c.x > -0.2 ∧ c.y < -0.4) ∧
      sin (12 * c.x + cos (12 * c.y)) * cos (12 * c.y + sin (12 * c.z)) *
        sin (12 * c.z + cos (12 * c.x)) ≤ 0.25 := by
  unfold genBrainTarget at h
  rcases hs : sampleBrain sin cos sqrt rand fuel k with - | c
  · rw [hs] at h; simp at h
  · rw [hs] at h
    simp only [Option.map_some', Option.some.injEq] at h
    obtain ⟨hx, hy, hz, hell, hflat, hn, hf⟩ :=
      sampleBrain_sound sin cos sqrt rand hr fuel k c hs
    refine ⟨c, rfl, h.symm, hx, hy, hz, by nlinarith [hell], hf, hflat, ?_⟩
    unfold brainNoise at hn
    rw [mul_comm (12:ℚ) c.x, mul_comm (12:ℚ) c.y, mul_comm (12:ℚ) c.z]
    exact hn

/-- Witness for C1: the stream `½, ½, ¾, …` (period 3) with all
transcendental primitives taken as the zero function accepts the
candidate `(0, 0, ½)` on the first draw. -/
theorem C1_brain_target_sound_witness :
    (∀ n : ℕ, 0 ≤ (if n % 3 = 2 then (3/4 : ℚ) else 1/2) ∧
        (if n % 3 = 2 then (3/4 : ℚ) else 1/2) < 1) ∧
    (∃ c : Vec3,
      sampleBrain (fun _ => 0) (fun _ => 0) (fun _ => 0)
        (fun n => if n % 3 = 2 then (3/4 : ℚ) else 1/2) 1 0 = some c ∧
      (⟨0, 0, 9/4⟩ : Vec3) = scaleBrain c ∧
      (-1 ≤ c.x ∧ c.x ≤ 1) ∧ (-1 ≤ c.y ∧ c.y ≤ 1) ∧ (-1 ≤ c.z ∧ c.z ≤ 1) ∧
      c.x ^ 2 + 1.4 * c.y ^ 2 + 1.2 * c.z ^ 2 ≤ 1.0 ∧
      0.04 ≤ |c.z| ∧
      ¬(c.y < -0.2 ∧ c.x > -0.2 ∧ c.y < -0.4) ∧
      (fun _ => (0:ℚ)) (12 * c.x + (fun _ => (0:ℚ)) (12 * c.y)) *
          (fun _ => (0:ℚ)) (12 * c.y + (fun _ => (0:ℚ)) (12 * c.z)) *
          (fun _ => (0:ℚ)) (12 * c.z + (fun _ => (0:ℚ)) (12 * c.x)) ≤ 0.25) := by
  refine ⟨fun n => by by_cases hn3 : n % 3 = 2 <;> norm_num [hn3], ?_⟩
  refine C1_brain_target_sound (fun _ => 0) (fun _ => 0) (fun _ => 0)
    (fun n => if n % 3 = 2 then (3/4 : ℚ) else 1/2)
    (fun n => by by_cases hn3 : n % 3 = 2 <;> norm_num [hn3]) 1 0 ⟨0, 0, 9/4⟩ ?_
  have habs : |(1/2 : ℚ)| = 1/2 := by norm_num
  norm_num [genBrainTarget, sampleBrain, brainIter, brainCheck, brainCereb,
    brainFissure, brainNoise, scaleBrain, habs]

/-! ## Claim C4 — the rejection loop has no retry cap and no fallback -/

/-- On the constant-½ random stream every candidate is `(0,0,0)`, which
fails the fissure check, so one loop iteration always redraws. -/
lemma brainIter_const_half (sin cos sqrt : ℚ → ℚ) (k : ℕ) :
    brainIter sin cos sqrt (fun _ => 1/2) k = (none, k + 3) := by
  unfold brainIter brainCheck brainCereb brainFissure
  norm_num

/-- On the constant-½ stream the loop never accepts, for **any** fuel. -/
lemma sampleBrain_const_half (sin cos sqrt : ℚ → ℚ) :
    ∀ fuel k : ℕ, sampleBrain sin cos sqrt (fun _ => 1/2) fuel k = none
  | 0, _ => rfl
  | fuel + 1, k => by
    rw [sampleBrain, brainIter_const_half]
    exact sampleBrain_const_half sin cos sqrt fuel (k + 3)

/-- C4 counterexample: after 1000 candidate redraws on the constant-½
stream the source loop has produced neither an accepted target nor any
fallback value — there is no retry cap and no exhaustion policy in the
code, whatever values `Math.sin`, `Math.cos`, `Math.sqrt` take. -/
theorem C4_retry_cap_cex :
    sampleBrain (fun _ => 0) (fun _ => 0) (fun _ => 0) (fun _ => 1/2) 1000 0 = none ∧
    genBrainTarget (fun _ => 0) (fun _ => 0) (fun _ => 0) (fun _ => 1/2) 1000 0 = none := by
  refine ⟨sampleBrain_const_half _ _ _ 1000 0, ?_⟩
  unfold genBrainTarget
  rw [sampleBrain_const_half (fun _ => 0) (fun _ => 0) (fun _ => 0) 1000 0]
  rfl

/-- C4 amended: the source's `while (true)` sampling loop has **no**
maximum retry count and **no** exhaustion fallback: it terminates only by
accepting a candidate, and on a random stream whose candidates always
fail (the constant-½ stream draws `(0,0,0)` forever, which the fissure
check rejects) the loop never produces a brain target, however many
iterations are allowed. -/
theorem C4_unbounded_retries (sin cos sqrt : ℚ → ℚ) (fuel k : ℕ) :
    sampleBrain sin cos sqrt (fun _ => 1/2) fuel k = none ∧
    genBrainTarget sin cos sqrt (fun _ => 1/2) fuel k = none := by
  refine ⟨sampleBrain_const_half sin cos sqrt fuel k, ?_⟩
  unfold genBrainTarget
  rw [sampleBrain_const_half sin cos sqrt fuel k]
  rfl

